import Mathlib

/-!
# Verification of the banking-management-system ledger (`banking_system.py`)

Shallow embedding of the core of `src/banking_system.py`:

* `sha256hex` — the password hash (`hashlib.sha256(password.encode()).hexdigest()`),
  implemented in full (UTF-8 encoding, padding, message schedule, compression;
  round constants derived, as in the SHA-256 standard, from the fractional parts
  of the cube/square roots of the first primes).
* `Account` with the `savings`/`checking` variants, `verify_password`,
  `deposit`, `withdraw`, `apply_interest`.
* `Customer` and the `Bank` ledger with its operations.  Python `dict`s become
  association lists with first-occurrence update semantics; interactive input
  (`getpass.getpass`, `input`) becomes explicit parameters; persistence
  (`_save_data`) becomes a stored snapshot carried inside the `Bank` state.
* Balances and amounts (Python floats used as decimal amounts) are modelled as
  exact rationals `Rat`.
-/

/-! ## SHA-256 -/

/-- Truncate to a 32-bit word, as every SHA-256 operation does. -/
def w32 (n : Nat) : Nat := n % 4294967296

/-- 32-bit right rotation. -/
def rotr32 (n x : Nat) : Nat := w32 ((x >>> n) ||| (x <<< (32 - n)))

def bigSigma0 (x : Nat) : Nat := rotr32 2 x ^^^ rotr32 13 x ^^^ rotr32 22 x

def bigSigma1 (x : Nat) : Nat := rotr32 6 x ^^^ rotr32 11 x ^^^ rotr32 25 x

def smallSigma0 (x : Nat) : Nat := rotr32 7 x ^^^ rotr32 18 x ^^^ (x >>> 3)

def smallSigma1 (x : Nat) : Nat := rotr32 17 x ^^^ rotr32 19 x ^^^ (x >>> 10)

def chFn (e f g : Nat) : Nat := (e &&& f) ^^^ ((e ^^^ 4294967295) &&& g)

def majFn (a b c : Nat) : Nat := (a &&& b) ^^^ (a &&& c) ^^^ (b &&& c)

/-- The first 64 primes; SHA-256 draws its constants from their roots. -/
def first64Primes : List Nat :=
  [2, 3, 5, 7, 11, 13, 17, 19, 23, 29, 31, 37, 41, 43, 47, 53,
   59, 61, 67, 71, 73, 79, 83, 89, 97, 101, 103, 107, 109, 113, 127, 131,
   137, 139, 149, 151, 157, 163, 167, 173, 179, 181, 191, 193, 197, 199, 211, 223,
   227, 229, 233, 239, 241, 251, 257, 263, 269, 271, 277, 281, 283, 293, 307, 311]

/-- Bitwise binary search for the integer cube root (`fuel` remaining bits). -/
def icbrtAux : Nat → Nat → Nat → Nat
  | 0, _, r => r
  | k + 1, n, r =>
    let r' := r + (1 <<< k)
    if r' * r' * r' ≤ n then icbrtAux k n r' else icbrtAux k n r

def icbrt (n : Nat) : Nat := icbrtAux 40 n 0

/-- SHA-256 round constants: first 32 bits of the fractional parts of the cube
roots of the first 64 primes. -/
def kConst : List Nat := first64Primes.map (fun p => icbrt (p * 2 ^ 96) % 2 ^ 32)

/-- SHA-256 initial hash value: first 32 bits of the fractional parts of the
square roots of the first 8 primes. -/
def hInit : List Nat := (first64Primes.take 8).map (fun p => Nat.sqrt (p * 2 ^ 64) % 2 ^ 32)

/-- UTF-8 encoding of one character (`str.encode()` uses UTF-8). -/
def utf8EncodeChar (c : Char) : List Nat :=
  let n := c.toNat
  if n < 128 then [n]
  else if n < 2048 then [192 + n / 64, 128 + n % 64]
  else if n < 65536 then [224 + n / 4096, 128 + (n / 64) % 64, 128 + n % 64]
  else [240 + n / 262144, 128 + (n / 4096) % 64, 128 + (n / 64) % 64, 128 + n % 64]

def stringBytes (s : String) : List Nat := (s.data.map utf8EncodeChar).flatten

/-- Big-endian byte decomposition, `k` bytes. -/
def natToBytesBE (k n : Nat) : List Nat :=
  (List.range k).map (fun i => (n >>> (8 * (k - 1 - i))) % 256)

/-- SHA-256 padding: append `0x80`, zeros to 56 mod 64, then the 64-bit
big-endian bit length. -/
def sha256Pad (msg : List Nat) : List Nat :=
  msg ++ [128] ++ List.replicate ((64 + 56 - ((msg.length + 1) % 64)) % 64) 0
      ++ natToBytesBE 8 (8 * msg.length)

/-- Group bytes into big-endian 32-bit words. -/
def bytesToWords : List Nat → List Nat
  | b0 :: b1 :: b2 :: b3 :: rest =>
      (b0 * 16777216 + b1 * 65536 + b2 * 256 + b3) :: bytesToWords rest
  | _ => []

/-- Split a word list into `k` chunks of 16 words. -/
def splitBlocks : Nat → List Nat → List (List Nat)
  | 0, _ => []
  | k + 1, ws => ws.take 16 :: splitBlocks k (ws.drop 16)

/-- Extend a 16-word block to the 64-word message schedule. -/
def extendSchedule : Nat → List Nat → List Nat
  | 0, w => w
  | k + 1, w =>
    let t := w.length
    let wt := w32 (smallSigma1 (w.getD (t - 2) 0) + w.getD (t - 7) 0 +
                   smallSigma0 (w.getD (t - 15) 0) + w.getD (t - 16) 0)
    extendSchedule k (w ++ [wt])

structure Sha256State where
  a : Nat
  b : Nat
  c : Nat
  d : Nat
  e : Nat
  f : Nat
  g : Nat
  h : Nat
deriving DecidableEq, Repr

/-- One SHA-256 compression round (`kw` is the round constant paired with the
schedule word). -/
def compressRound (s : Sha256State) (kw : Nat × Nat) : Sha256State :=
  let t1 := w32 (s.h + bigSigma1 s.e + chFn s.e s.f s.g + kw.1 + kw.2)
  let t2 := w32 (bigSigma0 s.a + majFn s.a s.b s.c)
  ⟨w32 (t1 + t2), s.a, s.b, s.c, w32 (s.d + t1), s.e, s.f, s.g⟩

/-- Process one 512-bit block. -/
def compressBlock (s : Sha256State) (block : List Nat) : Sha256State :=
  let t := (kConst.zip (extendSchedule 48 block)).foldl compressRound s
  ⟨w32 (s.a + t.a), w32 (s.b + t.b), w32 (s.c + t.c), w32 (s.d + t.d),
   w32 (s.e + t.e), w32 (s.f + t.f), w32 (s.g + t.g), w32 (s.h + t.h)⟩

def sha256InitState : Sha256State :=
  match hInit with
  | [a, b, c, d, e, f, g, h] => ⟨a, b, c, d, e, f, g, h⟩
  | _ => ⟨0, 0, 0, 0, 0, 0, 0, 0⟩

/-- SHA-256 digest of a byte string, as eight 32-bit words. -/
def sha256Words (msg : List Nat) : List Nat :=
  let padded := bytesToWords (sha256Pad msg)
  let s := (splitBlocks (padded.length / 16) padded).foldl compressBlock sha256InitState
  [s.a, s.b, s.c, s.d, s.e, s.f, s.g, s.h]

def hexDigitChar (n : Nat) : Char :=
  if n < 10 then Char.ofNat (48 + n) else Char.ofNat (87 + n)

/-- Lower-case hex rendering of a 32-bit word, always 8 characters. -/
def wordToHex (w : Nat) : List Char :=
  (List.range 8).map (fun i => hexDigitChar ((w >>> (4 * (7 - i))) % 16))

/-- `hashlib.sha256(s.encode()).hexdigest()`. -/
def sha256hex (s : String) : String :=
  String.mk (((sha256Words (stringBytes s)).map wordToHex).flatten)

/-! ## Association lists

Python `dict`s (`Bank._customers`, `Bank._accounts`) are modelled as
association lists: update keeps the position of an existing key, insertion of
a new key appends at the end, deletion removes the entry — exactly the
insertion-order semantics of Python dictionaries (keys are unique in any
state a `dict` can reach). -/

def lookupA {α : Type} : List (String × α) → String → Option α
  | [], _ => none
  | (k', v') :: rest, k => if k' = k then some v' else lookupA rest k

def insertA {α : Type} : List (String × α) → String → α → List (String × α)
  | [], k, v => [(k, v)]
  | (k', v') :: rest, k, v =>
    if k' = k then (k, v) :: rest else (k', v') :: insertA rest k v

def eraseA {α : Type} : List (String × α) → String → List (String × α)
  | [], _ => []
  | (k', v') :: rest, k => if k' = k then rest else (k', v') :: eraseA rest k

/-- `str.lower()`: character-wise lowercasing (the account-type strings it
is applied to are ASCII, where this agrees with Python's `.lower()`). -/
def strLower (s : String) : String := String.mk (s.data.map Char.toLower)

/-! ## Accounts -/

/-- The subclass tag together with its type-specific parameter
(`SavingsAccount._interest_rate` / `CheckingAccount._overdraft_limit`). -/
inductive AccountKind where
  | savings (interest_rate : Rat)
  | checking (overdraft_limit : Rat)
deriving DecidableEq, Repr

/-- `Account.__init__` state (shared fields of both subclasses) plus the
variant data. -/
structure Account where
  account_number : String
  account_holder_id : String
  balance : Rat
  password_hash : String
  failed_attempts : Nat
  is_locked : Bool
  kind : AccountKind
deriving DecidableEq, Repr

/-- `SavingsAccount(account_number, holder, initial_balance, password, rate)`:
`_password_hash = self._hash_password(password) if password else ""`. -/
def SavingsAccount.mk (account_number account_holder_id : String)
    (initial_balance : Rat) (password : String) (interest_rate : Rat) : Account :=
  { account_number := account_number
    account_holder_id := account_holder_id
    balance := initial_balance
    password_hash := if password = "" then "" else sha256hex password
    failed_attempts := 0
    is_locked := false
    kind := .savings interest_rate }

/-- `CheckingAccount(account_number, holder, initial_balance, password, limit)`. -/
def CheckingAccount.mk (account_number account_holder_id : String)
    (initial_balance : Rat) (password : String) (overdraft_limit : Rat) : Account :=
  { account_number := account_number
    account_holder_id := account_holder_id
    balance := initial_balance
    password_hash := if password = "" then "" else sha256hex password
    failed_attempts := 0
    is_locked := false
    kind := .checking overdraft_limit }

/-- `Account.verify_password`: returns the boolean result paired with the
mutated account. -/
def Account.verify_password (acc : Account) (password : String) : Bool × Account :=
  if acc.is_locked then
    (false, acc)
  else if acc.password_hash == sha256hex password then
    (true, { acc with failed_attempts := 0 })
  else
    let fa := acc.failed_attempts + 1
    (false, { acc with failed_attempts := fa,
                       is_locked := if fa ≥ 3 then true else acc.is_locked })

/-- `deposit`: the two subclasses have the same body, dispatched by type. -/
def Account.deposit (acc : Account) (amount : Rat) : Bool × Account :=
  match acc.kind with
  | .savings _ =>
    if amount > 0 then (true, { acc with balance := acc.balance + amount }) else (false, acc)
  | .checking _ =>
    if amount > 0 then (true, { acc with balance := acc.balance + amount }) else (false, acc)

/-- `withdraw`: savings requires `balance >= amount`, checking allows going
down to `-overdraft_limit`. -/
def Account.withdraw (acc : Account) (amount : Rat) : Bool × Account :=
  match acc.kind with
  | .savings _ =>
    if amount > 0 ∧ acc.balance ≥ amount then
      (true, { acc with balance := acc.balance - amount })
    else (false, acc)
  | .checking overdraft_limit =>
    if amount > 0 ∧ acc.balance - amount ≥ -overdraft_limit then
      (true, { acc with balance := acc.balance - amount })
    else (false, acc)

/-- `SavingsAccount.apply_interest` (identity on checking accounts, which do
not have the method). -/
def Account.apply_interest (acc : Account) : Account :=
  match acc.kind with
  | .savings interest_rate =>
      { acc with balance := acc.balance + acc.balance * interest_rate }
  | .checking _ => acc

/-- The `"type"`/parameter pair plus base fields written by `to_dict`.  `type`
strings other than the two written by `to_dict` never occur, so the tag is
the same `AccountKind`. -/
structure AccountDict where
  account_number : String
  account_holder_id : String
  balance : Rat
  password_hash : String
  failed_attempts : Nat
  is_locked : Bool
  type_data : AccountKind
deriving DecidableEq, Repr

/-- `Account.to_dict` (with the subclass `update`). -/
def Account.to_dict (acc : Account) : AccountDict :=
  { account_number := acc.account_number
    account_holder_id := acc.account_holder_id
    balance := acc.balance
    password_hash := acc.password_hash
    failed_attempts := acc.failed_attempts
    is_locked := acc.is_locked
    type_data := acc.kind }

/-! ## Customers -/

structure Customer where
  customer_id : String
  name : String
  address : String
  account_numbers : List String
deriving DecidableEq, Repr

/-- `Customer.__init__(customer_id, name, address)`. -/
def Customer.init (customer_id name address : String) : Customer :=
  { customer_id := customer_id, name := name, address := address, account_numbers := [] }

/-- `Customer.add_account_number`. -/
def Customer.add_account_number (c : Customer) (account_number : String) : Customer :=
  if account_number ∈ c.account_numbers then c
  else { c with account_numbers := c.account_numbers ++ [account_number] }

/-- `Customer.remove_account_number`. -/
def Customer.remove_account_number (c : Customer) (account_number : String) : Customer :=
  if account_number ∈ c.account_numbers then
    { c with account_numbers := c.account_numbers.erase account_number }
  else c

/-- `Customer.to_dict`. -/
structure CustomerDict where
  customer_id : String
  name : String
  address : String
  account_numbers : List String
deriving DecidableEq, Repr

def Customer.to_dict (c : Customer) : CustomerDict :=
  { customer_id := c.customer_id, name := c.name, address := c.address,
    account_numbers := c.account_numbers }

/-! ## The Bank ledger

`Bank` carries the two in-memory mappings plus the persisted snapshot (the
contents of `customers.json` / `accounts.json` as written by `_save_data`).
`input`/`getpass` prompts become explicit parameters. -/

structure Bank where
  customers : List (String × Customer)
  accounts : List (String × Account)
  stored_customers : List (String × CustomerDict)
  stored_accounts : List (String × AccountDict)
deriving DecidableEq, Repr

/-- `Bank._save_data`: serialize both mappings to the snapshot. -/
def Bank.save_data (b : Bank) : Bank :=
  { b with
    stored_customers := b.customers.map (fun p => (p.1, p.2.to_dict))
    stored_accounts := b.accounts.map (fun p => (p.1, p.2.to_dict)) }

/-- The customer-loading loop of `Bank._load_data`: rebuild each `Customer`
and re-add its account numbers, keyed by `customer.customer_id`. -/
def customerFromDict (d : CustomerDict) : Customer :=
  d.account_numbers.foldl Customer.add_account_number
    (Customer.init d.customer_id d.name d.address)

def load_customers : List (String × CustomerDict) → List (String × Customer) →
    List (String × Customer)
  | [], m => m
  | (_, d) :: rest, m =>
      load_customers rest (insertA m ((customerFromDict d).customer_id) (customerFromDict d))

/-- The account-loading loop of `Bank._load_data`: construct the subclass with
an empty password, then restore `password_hash`, `failed_attempts` and
`is_locked` from the record. -/
def accountFromDict (d : AccountDict) : Account :=
  let base :=
    match d.type_data with
    | .savings interest_rate =>
        SavingsAccount.mk d.account_number d.account_holder_id d.balance "" interest_rate
    | .checking overdraft_limit =>
        CheckingAccount.mk d.account_number d.account_holder_id d.balance "" overdraft_limit
  { base with password_hash := d.password_hash,
              failed_attempts := d.failed_attempts,
              is_locked := d.is_locked }

def load_accounts : List (String × AccountDict) → List (String × Account) →
    List (String × Account)
  | [], m => m
  | (_, d) :: rest, m =>
      load_accounts rest (insertA m ((accountFromDict d).account_number) (accountFromDict d))

/-- `Bank._load_data` starting from the empty mappings of `Bank.__init__`. -/
def Bank.load_data (stored_customers : List (String × CustomerDict))
    (stored_accounts : List (String × AccountDict)) : Bank :=
  { customers := load_customers stored_customers []
    accounts := load_accounts stored_accounts []
    stored_customers := stored_customers
    stored_accounts := stored_accounts }

/-- `Bank.add_customer`. -/
def Bank.add_customer (b : Bank) (customer : Customer) : Bool × Bank :=
  if (lookupA b.customers customer.customer_id).isSome then (false, b)
  else (true, (Bank.save_data
    { b with customers := insertA b.customers customer.customer_id customer }))

/-- `Bank.remove_customer`.  The two `input(...)` prompts become the `choice`
and `confirm` parameters (a run that never reaches a prompt ignores them). -/
def Bank.remove_customer (b : Bank) (customer_id : String)
    (choice : String) (confirm : String) : Bool × Bank :=
  match lookupA b.customers customer_id with
  | none => (false, b)
  | some customer =>
    if customer.account_numbers ≠ [] then
      if choice = "1" then (false, b)
      else if choice = "2" then
        let accounts_with_balance := customer.account_numbers.filter (fun acc_num =>
          match lookupA b.accounts acc_num with
          | some account => account.balance ≠ 0
          | none => false)
        if accounts_with_balance ≠ [] ∧ confirm ≠ "CONFIRM" then (false, b)
        else
          let accounts' := customer.account_numbers.foldl
            (fun m account_number =>
              if (lookupA m account_number).isSome then eraseA m account_number else m)
            b.accounts
          (true, Bank.save_data
            { b with accounts := accounts',
                     customers := eraseA b.customers customer_id })
      else (false, b)
    else
      (true, Bank.save_data { b with customers := eraseA b.customers customer_id })

/-- `Bank.create_account`.  `str(uuid.uuid4())[:8]` is an external random
draw, passed in as `generated_id`; the `kwargs` become optional parameters. -/
def Bank.create_account (b : Bank) (customer_id : String) (account_type : String)
    (initial_balance : Rat) (password : String)
    (kw_interest_rate : Option Rat) (kw_overdraft_limit : Option Rat)
    (generated_id : String) : Option Account × Bank :=
  match lookupA b.customers customer_id with
  | none => (none, b)
  | some customer =>
    let mk_account : Option Account :=
      if strLower account_type = "savings" then
        some (SavingsAccount.mk generated_id customer_id initial_balance password
          (kw_interest_rate.getD 0.01))
      else if strLower account_type = "checking" then
        some (CheckingAccount.mk generated_id customer_id initial_balance password
          (kw_overdraft_limit.getD 0))
      else none
    match mk_account with
    | none => (none, b)
    | some account =>
      (some account, Bank.save_data
        { b with accounts := insertA b.accounts generated_id account,
                 customers := insertA b.customers customer_id
                   (customer.add_account_number generated_id) })

/-- `Bank.deposit`: persists only on success. -/
def Bank.deposit (b : Bank) (account_number : String) (amount : Rat) : Bool × Bank :=
  match lookupA b.accounts account_number with
  | none => (false, b)
  | some account =>
    let r := account.deposit amount
    let b1 := { b with accounts := insertA b.accounts account_number r.2 }
    if r.1 then (true, b1.save_data) else (false, b1)

/-- `Bank.withdraw`: locked accounts fail before any prompt; `getpass` becomes
the `password` parameter; a failed verification is persisted, a successful
withdrawal is persisted. -/
def Bank.withdraw (b : Bank) (account_number : String) (amount : Rat)
    (password : String) : Bool × Bank :=
  match lookupA b.accounts account_number with
  | none => (false, b)
  | some account =>
    if account.is_locked then (false, b)
    else
      let v := account.verify_password password
      let b1 := { b with accounts := insertA b.accounts account_number v.2 }
      if !v.1 then (false, b1.save_data)
      else
        let w := v.2.withdraw amount
        let b2 := { b1 with accounts := insertA b1.accounts account_number w.2 }
        if w.1 then (true, b2.save_data) else (false, b2)

/-- `Bank.transfer_funds`.  The source object is mutated in place in Python,
so each mutation is written back to the mapping before the next read; reading
the destination from the post-withdraw mapping reproduces the aliasing
behaviour when both numbers coincide. -/
def Bank.transfer_funds (b : Bank) (from_acc_num to_acc_num : String)
    (amount : Rat) (password : String) : Bool × Bank :=
  match lookupA b.accounts from_acc_num, lookupA b.accounts to_acc_num with
  | some from_acc, some _ =>
    if amount ≤ 0 then (false, b)
    else if from_acc.is_locked then (false, b)
    else
      let v := from_acc.verify_password password
      let b1 := { b with accounts := insertA b.accounts from_acc_num v.2 }
      if !v.1 then (false, b1.save_data)
      else
        let w := v.2.withdraw amount
        let b2 := { b1 with accounts := insertA b1.accounts from_acc_num w.2 }
        if w.1 then
          match lookupA b2.accounts to_acc_num with
          | none => (false, b2)
          | some to_acc =>
            let d := to_acc.deposit amount
            let b3 := { b2 with accounts := insertA b2.accounts to_acc_num d.2 }
            if d.1 then (true, b3.save_data)
            else
              match lookupA b3.accounts from_acc_num with
              | none => (false, b3)
              | some from_acc2 =>
                let rb := insertA b3.accounts from_acc_num (from_acc2.deposit amount).2
                (false, { b3 with accounts := rb })
        else (false, b2)
  | _, _ => (false, b)

/-- `Bank.apply_all_interest`: interest on every savings account, one save at
the end. -/
def Bank.apply_all_interest (b : Bank) : Bank :=
  Bank.save_data
    { b with accounts := b.accounts.map (fun p =>
        (p.1, match p.2.kind with
              | .savings _ => p.2.apply_interest
              | .checking _ => p.2)) }

/-! ## Derived notions used by the specification -/

/-- Sum of all balances in the ledger (`sum(balances)` of the spec). -/
def balancesSum (l : List (String × Account)) : Rat :=
  (l.map (fun p => p.2.balance)).sum

/-- The account floor of the spec: balance may not go below `0` for savings,
`-overdraft_limit` for checking. -/
def account_ok (a : Account) : Bool :=
  match a.kind with
  | .savings _ => decide (0 ≤ a.balance)
  | .checking overdraft_limit => decide (-overdraft_limit ≤ a.balance)

def accounts_ok (l : List (String × Account)) : Bool :=
  l.all (fun p => account_ok p.2)

/-- Every savings account carries a non-negative interest rate (the spec's
data-model constraint `interestRate ≥ 0`). -/
def rates_ok (l : List (String × Account)) : Bool :=
  l.all (fun p =>
    match p.2.kind with
    | .savings interest_rate => decide (0 ≤ interest_rate)
    | .checking _ => true)

/-- The snapshot on disk agrees with the in-memory state, i.e. `_save_data`
would be a no-op. -/
def Bank.persisted (b : Bank) : Prop := b.save_data = b

/-- Well-formedness of a ledger as Python's `dict`s guarantee it: entry keys
are the ids of their values, keys are unique, and a customer's account list
has no duplicates (as `add_account_number` maintains). -/
def Bank.well_formed (b : Bank) : Prop :=
  (∀ p ∈ b.customers, p.1 = p.2.customer_id ∧ p.2.account_numbers.Nodup) ∧
  (∀ p ∈ b.accounts, p.1 = p.2.account_number) ∧
  (b.customers.map Prod.fst).Nodup ∧
  (b.accounts.map Prod.fst).Nodup

/-- Mirror of the control flow of `Bank.transfer_funds` that reports whether
the compensating branch (`from_acc.deposit(amount)` after a failed
destination deposit) is executed. -/
def Bank.transfer_rollback_reached (b : Bank) (from_acc_num to_acc_num : String)
    (amount : Rat) (password : String) : Bool :=
  match lookupA b.accounts from_acc_num, lookupA b.accounts to_acc_num with
  | some from_acc, some _ =>
    if amount ≤ 0 then false
    else if from_acc.is_locked then false
    else
      let v := from_acc.verify_password password
      if !v.1 then false
      else
        let w := v.2.withdraw amount
        if w.1 then
          match lookupA (insertA (insertA b.accounts from_acc_num v.2) from_acc_num w.2)
              to_acc_num with
          | none => false
          | some to_acc => !(to_acc.deposit amount).1
        else false
  | _, _ => false

/-! ## Concrete fixtures used by the closed instances below -/

def acctC1sav : Account := SavingsAccount.mk "s1" "c1" 100 "" 0.01

def acctC1chk : Account := CheckingAccount.mk "k1" "c1" 50 "" 20

def acctC2 : Account :=
  { account_number := "a1", account_holder_id := "c1", balance := 100,
    password_hash := sha256hex "pw", failed_attempts := 2, is_locked := false,
    kind := .savings 0.01 }

def acctC2wrong : Account :=
  { account_number := "a2", account_holder_id := "c1", balance := 100,
    password_hash := "h", failed_attempts := 0, is_locked := false,
    kind := .savings 0.01 }

def acctC2locked : Account :=
  { account_number := "a3", account_holder_id := "c1", balance := 100,
    password_hash := sha256hex "pw", failed_attempts := 3, is_locked := true,
    kind := .savings 0.01 }

def custC3 : Customer :=
  { customer_id := "c1", name := "n", address := "ad", account_numbers := ["f1", "t1"] }

def acctC3from : Account :=
  { account_number := "f1", account_holder_id := "c1", balance := 100,
    password_hash := sha256hex "pw", failed_attempts := 0, is_locked := false,
    kind := .savings 0.01 }

def acctC3to : Account :=
  { account_number := "t1", account_holder_id := "c1", balance := 5,
    password_hash := "", failed_attempts := 0, is_locked := false,
    kind := .checking 20 }

def bankC3 : Bank :=
  Bank.save_data
    { customers := [("c1", custC3)],
      accounts := [("f1", acctC3from), ("t1", acctC3to)],
      stored_customers := [], stored_accounts := [] }

def custC4 : Customer := Customer.init "c1" "n" "ad"

def bankC4 : Bank :=
  (Bank.load_data [] []).add_customer custC4 |>.2

def acctC5old : Account := SavingsAccount.mk "deadbeef" "c1" 7 "" 0.01

def bankC5 : Bank :=
  Bank.save_data
    { customers := [("c1", { custC4 with account_numbers := ["deadbeef"] })],
      accounts := [("deadbeef", acctC5old)],
      stored_customers := [], stored_accounts := [] }

def acctC6 : Account :=
  { account_number := "a1", account_holder_id := "c1", balance := 10,
    password_hash := sha256hex "pw", failed_attempts := 2, is_locked := false,
    kind := .savings 0.01 }

def bankC6 : Bank :=
  Bank.save_data
    { customers := [("c1", { custC4 with account_numbers := ["a1"] })],
      accounts := [("a1", acctC6)],
      stored_customers := [], stored_accounts := [] }

def acctC7 : Account := SavingsAccount.mk "a1" "c1" 5 "" 0.01

def bankC7 : Bank :=
  Bank.save_data
    { customers := [("c1", { custC4 with account_numbers := ["a1"] })],
      accounts := [("a1", acctC7)],
      stored_customers := [], stored_accounts := [] }

def bankC8 : Bank :=
  Bank.save_data
    { customers := [("c1", { custC4 with account_numbers := ["a1", "a2"] })],
      accounts := [("a1", { acctC7 with password_hash := "h", failed_attempts := 1 }),
                   ("a2", { CheckingAccount.mk "a2" "c1" (-3) "" 20 with is_locked := true })],
      stored_customers := [], stored_accounts := [] }

def acctC9 : Account := SavingsAccount.mk "a1" "c1" 100 "" 0.01

/-! ## Helper lemmas -/

theorem wordToHex_length (w : Nat) : (wordToHex w).length = 8 := by
  simp [wordToHex]

theorem sha256hex_length (s : String) : (sha256hex s).length = 64 := by
  simp [sha256hex, sha256Words, String.length, wordToHex_length]

theorem sha256hex_ne_empty (s : String) : sha256hex s ≠ "" := by
  intro h
  have h64 := sha256hex_length s
  rw [h] at h64
  exact absurd h64 (by decide)

theorem sha256hex_ne_of_length {t : String} (s : String) (h : t.length ≠ 64) :
    sha256hex s ≠ t := by
  intro he
  exact h (he ▸ sha256hex_length s)

/-- A successful verification: the stored hash equals the hash of the
supplied password and the account is unlocked. -/
theorem verify_password_correct (acc : Account) (p : String)
    (hl : acc.is_locked = false) (hh : acc.password_hash = sha256hex p) :
    acc.verify_password p = (true, { acc with failed_attempts := 0 }) := by
  unfold Account.verify_password
  rw [hl, hh]
  simp

theorem lookupA_insertA_self {α : Type} (l : List (String × α)) (k : String) (v : α) :
    lookupA (insertA l k v) k = some v := by
  induction l with
  | nil => simp [insertA, lookupA]
  | cons hd tl ih =>
    obtain ⟨k', v'⟩ := hd
    by_cases h : k' = k
    · simp [insertA, lookupA, h]
    · simp [insertA, lookupA, h, ih]

theorem lookupA_insertA_ne {α : Type} (l : List (String × α)) (k k' : String) (v : α)
    (h : k ≠ k') : lookupA (insertA l k v) k' = lookupA l k' := by
  induction l with
  | nil => simp [insertA, lookupA, h]
  | cons hd tl ih =>
    obtain ⟨k0, v0⟩ := hd
    by_cases h0 : k0 = k
    · subst h0
      simp [insertA, lookupA, h]
    · simp [insertA, lookupA, h0, ih]

theorem verify_password_fields (acc acc' : Account) (p : String) (ok : Bool)
    (h : acc.verify_password p = (ok, acc')) :
    acc'.balance = acc.balance ∧ acc'.kind = acc.kind ∧
    acc'.account_number = acc.account_number ∧
    acc'.password_hash = acc.password_hash := by
  unfold Account.verify_password at h
  split at h
  · cases h; exact ⟨rfl, rfl, rfl, rfl⟩
  · split at h <;> (cases h; exact ⟨rfl, rfl, rfl, rfl⟩)

theorem deposit_fields (acc acc' : Account) (amount : Rat) (ok : Bool)
    (h : acc.deposit amount = (ok, acc')) :
    acc'.kind = acc.kind ∧ acc'.is_locked = acc.is_locked ∧
    acc'.account_number = acc.account_number ∧
    acc'.failed_attempts = acc.failed_attempts := by
  unfold Account.deposit at h
  rcases hk : acc.kind with r | od <;> rw [hk] at h <;> dsimp only at h <;>
    split at h <;> (cases h; simp [hk])

theorem withdraw_fields (acc acc' : Account) (amount : Rat) (ok : Bool)
    (h : acc.withdraw amount = (ok, acc')) :
    acc'.kind = acc.kind ∧ acc'.is_locked = acc.is_locked ∧
    acc'.account_number = acc.account_number ∧
    acc'.failed_attempts = acc.failed_attempts := by
  unfold Account.withdraw at h
  rcases hk : acc.kind with r | od <;> rw [hk] at h <;> dsimp only at h <;>
    split at h <;> (cases h; simp [hk])

theorem deposit_pos (acc : Account) (amount : Rat) (h : 0 < amount) :
    acc.deposit amount = (true, { acc with balance := acc.balance + amount }) := by
  unfold Account.deposit
  rcases hk : acc.kind with r | od <;> dsimp only <;> rw [if_pos h]

theorem deposit_nonpos (acc : Account) (amount : Rat) (h : ¬0 < amount) :
    acc.deposit amount = (false, acc) := by
  unfold Account.deposit
  rcases hk : acc.kind with r | od <;> dsimp only <;> rw [if_neg h]

theorem withdraw_success (acc acc' : Account) (amount : Rat)
    (h : acc.withdraw amount = (true, acc')) :
    0 < amount ∧ acc'.balance = acc.balance - amount := by
  unfold Account.withdraw at h
  rcases hk : acc.kind with r | od <;> rw [hk] at h <;> dsimp only at h <;>
    split at h
  · next hc => cases h; exact ⟨hc.1, rfl⟩
  · cases h
  · next hc => cases h; exact ⟨hc.1, rfl⟩
  · cases h

theorem withdraw_fail (acc acc' : Account) (amount : Rat)
    (h : acc.withdraw amount = (false, acc')) : acc' = acc := by
  unfold Account.withdraw at h
  rcases hk : acc.kind with r | od <;> rw [hk] at h <;> dsimp only at h <;>
    split at h <;> cases h <;> rfl

theorem apply_interest_fields (acc : Account) :
    acc.apply_interest.kind = acc.kind ∧
    acc.apply_interest.is_locked = acc.is_locked ∧
    acc.apply_interest.account_number = acc.account_number := by
  unfold Account.apply_interest
  rcases hk : acc.kind with r | od
  · exact ⟨rfl, rfl, rfl⟩
  · exact ⟨hk, rfl, rfl⟩

theorem balancesSum_insertA (l : List (String × Account)) (k : String)
    (a v : Account) (h : lookupA l k = some a) :
    balancesSum (insertA l k v) = balancesSum l - a.balance + v.balance := by
  induction l with
  | nil => simp [lookupA] at h
  | cons hd tl ih =>
    obtain ⟨k0, v0⟩ := hd
    by_cases h0 : k0 = k
    · rw [lookupA] at h
      rw [if_pos h0] at h
      cases h
      simp [insertA, h0, balancesSum]
      ring
    · rw [lookupA] at h
      rw [if_neg h0] at h
      have := ih h
      simp [insertA, h0, balancesSum] at this ⊢
      rw [this]
      ring

theorem accounts_ok_lookup (l : List (String × Account)) (k : String) (a : Account)
    (hall : accounts_ok l = true) (h : lookupA l k = some a) : account_ok a = true := by
  induction l with
  | nil => simp [lookupA] at h
  | cons hd tl ih =>
    obtain ⟨k0, v0⟩ := hd
    rw [accounts_ok, List.all_cons, Bool.and_eq_true] at hall
    rw [lookupA] at h
    by_cases h0 : k0 = k
    · rw [if_pos h0] at h
      cases h
      exact hall.1
    · rw [if_neg h0] at h
      exact ih hall.2 h

theorem accounts_ok_insertA (l : List (String × Account)) (k : String) (v : Account)
    (hall : accounts_ok l = true) (hv : account_ok v = true) :
    accounts_ok (insertA l k v) = true := by
  induction l with
  | nil => simp [insertA, accounts_ok, hv]
  | cons hd tl ih =>
    obtain ⟨k0, v0⟩ := hd
    rw [accounts_ok, List.all_cons, Bool.and_eq_true] at hall
    by_cases h0 : k0 = k
    · rw [insertA, if_pos h0, accounts_ok, List.all_cons, Bool.and_eq_true]
      exact ⟨hv, hall.2⟩
    · rw [insertA, if_neg h0, accounts_ok, List.all_cons, Bool.and_eq_true]
      exact ⟨hall.1, ih hall.2⟩

theorem accounts_ok_eraseA (l : List (String × Account)) (k : String)
    (hall : accounts_ok l = true) : accounts_ok (eraseA l k) = true := by
  induction l with
  | nil => simpa [eraseA] using hall
  | cons hd tl ih =>
    obtain ⟨k0, v0⟩ := hd
    rw [accounts_ok, List.all_cons, Bool.and_eq_true] at hall
    by_cases h0 : k0 = k
    · rw [eraseA, if_pos h0]
      exact hall.2
    · rw [eraseA, if_neg h0, accounts_ok, List.all_cons, Bool.and_eq_true]
      exact ⟨hall.1, ih hall.2⟩

theorem lookupA_eraseA_none {α : Type} (l : List (String × α)) (k n : String)
    (h : lookupA l n = none) : lookupA (eraseA l k) n = none := by
  induction l with
  | nil => simp [eraseA, lookupA]
  | cons hd tl ih =>
    obtain ⟨k0, v0⟩ := hd
    rw [lookupA] at h
    by_cases hn : k0 = n
    · rw [if_pos hn] at h
      cases h
    · rw [if_neg hn] at h
      by_cases h0 : k0 = k
      · rw [eraseA, if_pos h0]
        exact h
      · rw [eraseA, if_neg h0, lookupA, if_neg hn]
        exact ih h

theorem lookupA_eraseA_ne {α : Type} (l : List (String × α)) (k n : String)
    (hne : n ≠ k) : lookupA (eraseA l k) n = lookupA l n := by
  induction l with
  | nil => simp [eraseA]
  | cons hd tl ih =>
    obtain ⟨k0, v0⟩ := hd
    by_cases h0 : k0 = k
    · rw [eraseA, if_pos h0, lookupA, if_neg (by rw [h0]; exact fun h => hne h.symm)]
    · by_cases hn : k0 = n
      · rw [eraseA, if_neg h0, lookupA, if_pos hn, lookupA, if_pos hn]
      · rw [eraseA, if_neg h0, lookupA, if_neg hn, lookupA, if_neg hn]
        exact ih

theorem lookupA_eraseA_self {α : Type} (l : List (String × α)) (k : String)
    (hnd : (l.map Prod.fst).Nodup) : lookupA (eraseA l k) k = none := by
  induction l with
  | nil => simp [eraseA, lookupA]
  | cons hd tl ih =>
    obtain ⟨k0, v0⟩ := hd
    rw [List.map_cons, List.nodup_cons] at hnd
    by_cases h0 : k0 = k
    · rw [eraseA, if_pos h0]
      subst h0
      clear ih
      induction tl with
      | nil => rfl
      | cons hd2 tl2 ih2 =>
        obtain ⟨k1, v1⟩ := hd2
        rw [List.map_cons, List.mem_cons, not_or] at hnd
        rw [lookupA, if_neg (fun h => hnd.1.1 h.symm)]
        exact ih2 ⟨hnd.1.2, (List.nodup_cons.mp hnd.2).2⟩
    · rw [eraseA, if_neg h0, lookupA, if_neg h0]
      exact ih hnd.2

theorem eraseA_sublist {α : Type} (l : List (String × α)) (k : String) :
    (eraseA l k).Sublist l := by
  induction l with
  | nil => simp [eraseA]
  | cons hd tl ih =>
    obtain ⟨k0, v0⟩ := hd
    by_cases h0 : k0 = k
    · rw [eraseA, if_pos h0]
      exact (List.sublist_cons_self _ _)
    · rw [eraseA, if_neg h0]
      exact ih.cons₂ _

theorem keys_nodup_eraseA {α : Type} (l : List (String × α)) (k : String)
    (hnd : (l.map Prod.fst).Nodup) : ((eraseA l k).map Prod.fst).Nodup :=
  hnd.sublist ((eraseA_sublist l k).map Prod.fst)

theorem fold_erase_none (ns : List String) (m : List (String × Account)) (n : String)
    (h : lookupA m n = none) :
    lookupA (ns.foldl (fun m account_number =>
      if (lookupA m account_number).isSome then eraseA m account_number else m) m) n
      = none := by
  induction ns generalizing m with
  | nil => exact h
  | cons hd tl ih =>
    rw [List.foldl_cons]
    by_cases hp : (lookupA m hd).isSome
    · rw [if_pos hp]
      exact ih _ (lookupA_eraseA_none m hd n h)
    · rw [if_neg hp]
      exact ih _ h

theorem fold_erase_keys_nodup (ns : List String) (m : List (String × Account))
    (hnd : (m.map Prod.fst).Nodup) :
    (((ns.foldl (fun m account_number =>
      if (lookupA m account_number).isSome then eraseA m account_number else m) m)).map
        Prod.fst).Nodup := by
  induction ns generalizing m with
  | nil => exact hnd
  | cons hd tl ih =>
    rw [List.foldl_cons]
    by_cases hp : (lookupA m hd).isSome
    · rw [if_pos hp]
      exact ih _ (keys_nodup_eraseA m hd hnd)
    · rw [if_neg hp]
      exact ih _ hnd

theorem fold_erase_mem (ns : List String) (m : List (String × Account)) (n : String)
    (hnd : (m.map Prod.fst).Nodup) (hmem : n ∈ ns) :
    lookupA (ns.foldl (fun m account_number =>
      if (lookupA m account_number).isSome then eraseA m account_number else m) m) n
      = none := by
  induction ns generalizing m with
  | nil => cases hmem
  | cons hd tl ih =>
    rw [List.foldl_cons]
    rcases List.mem_cons.mp hmem with he | ht
    · subst he
      by_cases hp : (lookupA m n).isSome
      · rw [if_pos hp]
        exact fold_erase_none tl _ n (lookupA_eraseA_self m n hnd)
      · rw [if_neg hp]
        exact fold_erase_none tl _ n (Option.not_isSome_iff_eq_none.mp hp)
    · by_cases hp : (lookupA m hd).isSome
      · rw [if_pos hp]
        exact ih _ (keys_nodup_eraseA m hd hnd) ht
      · rw [if_neg hp]
        exact ih _ hnd ht

theorem fold_erase_not_mem (ns : List String) (m : List (String × Account)) (n : String)
    (hmem : n ∉ ns) :
    lookupA (ns.foldl (fun m account_number =>
      if (lookupA m account_number).isSome then eraseA m account_number else m) m) n
      = lookupA m n := by
  induction ns generalizing m with
  | nil => rfl
  | cons hd tl ih =>
    rw [List.mem_cons, not_or] at hmem
    rw [List.foldl_cons]
    by_cases hp : (lookupA m hd).isSome
    · rw [if_pos hp, ih _ hmem.2]
      exact lookupA_eraseA_ne m hd n hmem.1
    · rw [if_neg hp]
      exact ih _ hmem.2

theorem fold_erase_accounts_ok (ns : List String) (m : List (String × Account))
    (hall : accounts_ok m = true) :
    accounts_ok (ns.foldl (fun m account_number =>
      if (lookupA m account_number).isSome then eraseA m account_number else m) m)
      = true := by
  induction ns generalizing m with
  | nil => exact hall
  | cons hd tl ih =>
    rw [List.foldl_cons]
    by_cases hp : (lookupA m hd).isSome
    · rw [if_pos hp]
      exact ih _ (accounts_ok_eraseA m hd hall)
    · rw [if_neg hp]
      exact ih _ hall

theorem save_data_accounts (b : Bank) : (b.save_data).accounts = b.accounts := rfl

theorem save_data_customers (b : Bank) : (b.save_data).customers = b.customers := rfl

theorem save_data_idem (b : Bank) : b.save_data.save_data = b.save_data := rfl

theorem save_data_persisted (b : Bank) : (b.save_data).persisted := rfl

theorem insertA_not_mem {α : Type} (l : List (String × α)) (k : String) (v : α)
    (h : k ∉ l.map Prod.fst) : insertA l k v = l ++ [(k, v)] := by
  induction l with
  | nil => rfl
  | cons hd tl ih =>
    obtain ⟨k0, v0⟩ := hd
    rw [List.map_cons, List.mem_cons, not_or] at h
    rw [insertA, if_neg (fun he => h.1 he.symm), List.cons_append, ih h.2]

theorem foldl_add_account_number (ns : List String) (c : Customer)
    (hnd : (c.account_numbers ++ ns).Nodup) :
    ns.foldl Customer.add_account_number c =
      { c with account_numbers := c.account_numbers ++ ns } := by
  induction ns generalizing c with
  | nil => simp
  | cons hd tl ih =>
    have hd_not : hd ∉ c.account_numbers := by
      intro hmem
      exact (List.nodup_append.mp hnd).2.2 hmem (List.mem_cons_self hd tl)
    rw [List.foldl_cons, Customer.add_account_number, if_neg hd_not]
    rw [ih { c with account_numbers := c.account_numbers ++ [hd] }
      (by simpa using hnd)]
    simp

theorem customerFromDict_to_dict (c : Customer) (hnd : c.account_numbers.Nodup) :
    customerFromDict c.to_dict = c := by
  rw [customerFromDict, Customer.to_dict]
  rw [foldl_add_account_number _ _ (by simpa [Customer.init] using hnd)]
  simp [Customer.init]

theorem accountFromDict_to_dict (a : Account) : accountFromDict a.to_dict = a := by
  rcases a with ⟨an, ah, bal, ph, fa, il, kd⟩
  rcases kd <;> rfl

theorem foldl_add_customer_id (ns : List String) (c : Customer) :
    (ns.foldl Customer.add_account_number c).customer_id = c.customer_id := by
  induction ns generalizing c with
  | nil => rfl
  | cons n ntl ihn =>
    rw [List.foldl_cons, ihn, Customer.add_account_number]
    split <;> rfl

theorem load_customers_eq (l : List (String × CustomerDict))
    (m : List (String × Customer))
    (hwf : ∀ p ∈ l, p.1 = p.2.customer_id)
    (hnd : (m.map Prod.fst ++ l.map Prod.fst).Nodup) :
    load_customers l m = m ++ l.map (fun p => (p.1, customerFromDict p.2)) := by
  induction l generalizing m with
  | nil => simp [load_customers]
  | cons hd tl ih =>
    obtain ⟨k, d⟩ := hd
    have hk : k = d.customer_id := hwf (k, d) (List.mem_cons_self _ _)
    have hcfd : (customerFromDict d).customer_id = d.customer_id := by
      rw [customerFromDict, foldl_add_customer_id]
      rfl
    have hknotm : k ∉ m.map Prod.fst := by
      intro hmem
      have := (List.nodup_append.mp hnd).2.2 hmem
      exact this (by simp)
    rw [load_customers, hcfd, ← hk, insertA_not_mem m k _ hknotm]
    rw [ih (m ++ [(k, customerFromDict d)])
      (fun p hp => hwf p (List.mem_cons_of_mem _ hp))
      (by simpa using hnd)]
    simp

theorem load_accounts_eq (l : List (String × AccountDict))
    (m : List (String × Account))
    (hwf : ∀ p ∈ l, p.1 = p.2.account_number)
    (hnd : (m.map Prod.fst ++ l.map Prod.fst).Nodup) :
    load_accounts l m = m ++ l.map (fun p => (p.1, accountFromDict p.2)) := by
  induction l generalizing m with
  | nil => simp [load_accounts]
  | cons hd tl ih =>
    obtain ⟨k, d⟩ := hd
    have hk : k = d.account_number := hwf (k, d) (List.mem_cons_self _ _)
    have hafd : (accountFromDict d).account_number = d.account_number := by
      rw [accountFromDict]
      rcases d.type_data <;> rfl
    have hknotm : k ∉ m.map Prod.fst := by
      intro hmem
      have := (List.nodup_append.mp hnd).2.2 hmem
      exact this (by simp)
    rw [load_accounts, hafd, ← hk, insertA_not_mem m k _ hknotm]
    rw [ih (m ++ [(k, accountFromDict d)])
      (fun p hp => hwf p (List.mem_cons_of_mem _ hp))
      (by simpa using hnd)]
    simp

/-! ## The claims -/

/-- C1: for a savings account `withdraw` succeeds iff `amount > 0` and
`balance >= amount`; for a checking account iff `amount > 0` and
`balance - amount >= -overdraft_limit`; on success the balance decreases by
exactly the amount and stays at or above the account's floor (0 for savings,
`-overdraft_limit` for checking); on failure the account is unchanged. -/
theorem C1_withdraw_rules (acc : Account) (amount : Rat) :
    (∀ r, acc.kind = .savings r →
      ((acc.withdraw amount).1 = true ↔ 0 < amount ∧ amount ≤ acc.balance)) ∧
    (∀ od, acc.kind = .checking od →
      ((acc.withdraw amount).1 = true ↔ 0 < amount ∧ -od ≤ acc.balance - amount)) ∧
    ((acc.withdraw amount).1 = true →
      ((acc.withdraw amount).2.balance = acc.balance - amount ∧
       (∀ r, acc.kind = .savings r → 0 ≤ (acc.withdraw amount).2.balance) ∧
       (∀ od, acc.kind = .checking od → -od ≤ (acc.withdraw amount).2.balance))) ∧
    ((acc.withdraw amount).1 = false → (acc.withdraw amount).2 = acc) := by
  unfold Account.withdraw
  rcases hk : acc.kind with r | od <;> dsimp only
  · by_cases hc : amount > 0 ∧ acc.balance ≥ amount
    · rw [if_pos hc]
      refine ⟨fun _ _ => ⟨fun _ => ⟨hc.1, hc.2⟩, fun _ => rfl⟩,
              fun od hod => (by cases hod), ?_, fun hf => (by cases hf)⟩
      intro _
      refine ⟨rfl, fun r' _ => ?_, fun od hod => (by cases hod)⟩
      have := hc.2
      dsimp only
      linarith
    · rw [if_neg hc]
      exact ⟨fun _ _ => ⟨fun h => (by cases h), fun h => absurd ⟨h.1, h.2⟩ hc⟩,
             fun od hod => (by cases hod), fun h => (by cases h), fun _ => rfl⟩
  · by_cases hc : amount > 0 ∧ acc.balance - amount ≥ -od
    · rw [if_pos hc]
      refine ⟨fun r hr => (by cases hr), ?_, ?_, fun hf => (by cases hf)⟩
      · intro od' hod
        cases hod
        exact ⟨fun _ => ⟨hc.1, hc.2⟩, fun _ => rfl⟩
      · intro _
        refine ⟨rfl, fun r hr => (by cases hr), ?_⟩
        intro od' hod
        cases hod
        exact hc.2
    · rw [if_neg hc]
      refine ⟨fun r hr => (by cases hr), ?_, fun h => (by cases h), fun _ => rfl⟩
      intro od' hod
      cases hod
      exact ⟨fun h => (by cases h), fun h => absurd ⟨h.1, h.2⟩ hc⟩

theorem C1_withdraw_rules_witness :
    ((acctC1sav.withdraw 30).1 = true ↔ 0 < (30 : Rat) ∧ (30 : Rat) ≤ acctC1sav.balance) ∧
    (acctC1chk.withdraw 60).2.balance = acctC1chk.balance - 60 ∧
    -(20 : Rat) ≤ (acctC1chk.withdraw 60).2.balance := by
  have hchk : (acctC1chk.withdraw 60).1 = true := by
    norm_num [acctC1chk, CheckingAccount.mk, Account.withdraw]
  exact ⟨(C1_withdraw_rules acctC1sav 30).1 0.01 rfl,
    ((C1_withdraw_rules acctC1chk 60).2.2.1 hchk).1,
    ((C1_withdraw_rules acctC1chk 60).2.2.1 hchk).2.2 20 rfl⟩

/-- C2: `verify_password` on a locked account returns false and changes
nothing; on an unlocked account a wrong password (hash mismatch) increments
`failed_attempts` and locks exactly when the count reaches 3; a correct
password resets the count to 0 and returns true; and a locked account stays
locked under every account operation — in particular a fourth attempt, even
with the correct password, still returns false. -/
theorem C2_password_state_machine (acc : Account) (p : String) :
    (acc.is_locked = true → acc.verify_password p = (false, acc)) ∧
    (acc.is_locked = false → sha256hex p ≠ acc.password_hash →
      ((acc.verify_password p).1 = false ∧
       (acc.verify_password p).2.failed_attempts = acc.failed_attempts + 1 ∧
       ((acc.verify_password p).2.is_locked = true ↔ 3 ≤ acc.failed_attempts + 1))) ∧
    (acc.is_locked = false → sha256hex p = acc.password_hash →
      acc.verify_password p = (true, { acc with failed_attempts := 0 })) ∧
    (acc.is_locked = true → ∀ amount : Rat,
      (acc.verify_password p).2.is_locked = true ∧
      ((acc.deposit amount).2).is_locked = true ∧
      ((acc.withdraw amount).2).is_locked = true ∧
      acc.apply_interest.is_locked = true) := by
  refine ⟨?_, ?_, ?_, ?_⟩
  · intro hl
    unfold Account.verify_password
    rw [hl]
    simp
  · intro hl hne
    have hbe : (acc.password_hash == sha256hex p) = false :=
      beq_eq_false_iff_ne.mpr (fun he => hne he.symm)
    unfold Account.verify_password
    rw [hl, hbe]
    refine ⟨by simp, by simp, ?_⟩
    by_cases h3 : acc.failed_attempts + 1 ≥ 3
    · simp [h3]
    · simp [h3]
  · intro hl hh
    exact verify_password_correct acc p hl hh.symm
  · intro hl amount
    refine ⟨?_, ?_, ?_, ?_⟩
    · unfold Account.verify_password
      rw [hl]
      simpa using hl
    · exact ((deposit_fields acc (acc.deposit amount).2 amount
        (acc.deposit amount).1 rfl).2.1).trans hl
    · exact ((withdraw_fields acc (acc.withdraw amount).2 amount
        (acc.withdraw amount).1 rfl).2.1).trans hl
    · exact ((apply_interest_fields acc).2.1).trans hl

theorem C2_password_state_machine_witness :
    acctC2locked.verify_password "pw" = (false, acctC2locked) ∧
    (acctC2wrong.verify_password "a").1 = false ∧
    (acctC2wrong.verify_password "a").2.failed_attempts = 1 ∧
    acctC2.verify_password "pw" = (true, { acctC2 with failed_attempts := 0 }) := by
  have hw := (C2_password_state_machine acctC2wrong "a").2.1 rfl
    (sha256hex_ne_of_length "a" (by decide))
  exact ⟨(C2_password_state_machine acctC2locked "pw").1 rfl, hw.1, hw.2.1,
    (C2_password_state_machine acctC2 "pw").2.2.1 rfl rfl⟩

/-- C9: an account whose stored hash is the empty sentinel (created with an
empty password) never verifies: the SHA-256 hex digest of any string has 64
characters, so it is never the empty string. -/
theorem C9_empty_sentinel_never_verifies (acc : Account) (p : String)
    (h : acc.password_hash = "") : (acc.verify_password p).1 = false := by
  unfold Account.verify_password
  rw [h]
  split
  · rfl
  · rw [if_neg (fun hbe : ("" == sha256hex p) = true =>
      sha256hex_ne_empty p (beq_iff_eq.mp hbe).symm)]

theorem C9_empty_sentinel_never_verifies_witness :
    (acctC9.verify_password "secret").1 = false :=
  C9_empty_sentinel_never_verifies acctC9 "secret" rfl

/-- C10: the compensating rollback branch of `transfer_funds` is unreachable:
the `amount <= 0` guard runs before verification, `deposit` succeeds on either
variant for every positive amount, so once the source withdrawal succeeds the
destination deposit always succeeds. -/
theorem C10_rollback_unreachable :
    (∀ (acc : Account) (amount : Rat), 0 < amount → (acc.deposit amount).1 = true) ∧
    (∀ (b : Bank) (from_acc_num to_acc_num : String) (amount : Rat)
      (password : String),
      b.transfer_rollback_reached from_acc_num to_acc_num amount password = false) := by
  constructor
  · intro acc amount h
    rw [deposit_pos acc amount h]
  · intro b from_acc_num to_acc_num amount password
    unfold Bank.transfer_rollback_reached
    rcases h1 : lookupA b.accounts from_acc_num with _ | from_acc
    · rfl
    rcases h2 : lookupA b.accounts to_acc_num with _ | to_acc0
    · rfl
    dsimp only
    by_cases ha : amount ≤ 0
    · rw [if_pos ha]
    rw [if_neg ha]
    by_cases hlk : from_acc.is_locked
    · rw [if_pos hlk]
    rw [if_neg hlk]
    by_cases hv : (from_acc.verify_password password).1
    · rw [if_neg (by simp [hv])]
      by_cases hw : ((from_acc.verify_password password).2.withdraw amount).1
      · rw [if_pos hw]
        rcases h3 : lookupA (insertA (insertA b.accounts from_acc_num
            (from_acc.verify_password password).2) from_acc_num
            ((from_acc.verify_password password).2.withdraw amount).2) to_acc_num
          with _ | to_acc
        · rfl
        · dsimp only
          rw [deposit_pos to_acc amount (lt_of_not_le ha)]
          rfl
      · rw [if_neg hw]
    · rw [if_pos (by simp [hv])]

theorem C10_rollback_unreachable_witness :
    ((SavingsAccount.mk "w1" "c9" 3 "" 1).deposit 5).1 = true :=
  C10_rollback_unreachable.1 (SavingsAccount.mk "w1" "c9" 3 "" 1) 5 (by norm_num)

/-- C8: saving the ledger and loading it back yields the same customers and
accounts — every account field (balance, lock state, failed attempts, hash,
owner, type and its parameter) and every customer's account-number list, in
order — for any ledger whose mappings are well-formed in the way Python
dictionaries guarantee. -/
theorem C8_round_trip (b : Bank) (hwf : b.well_formed) :
    (Bank.load_data b.save_data.stored_customers b.save_data.stored_accounts).customers
      = b.customers ∧
    (Bank.load_data b.save_data.stored_customers b.save_data.stored_accounts).accounts
      = b.accounts := by
  obtain ⟨hc, ha, hndc, hnda⟩ := hwf
  constructor
  · show load_customers (b.customers.map fun p => (p.1, p.2.to_dict)) [] = b.customers
    rw [load_customers_eq]
    · rw [List.nil_append, List.map_map]
      have : ∀ p ∈ b.customers,
          ((fun p : String × CustomerDict => (p.1, customerFromDict p.2)) ∘
            (fun p : String × Customer => (p.1, p.2.to_dict))) p = p := by
        intro p hp
        obtain ⟨h1, h2⟩ := hc p hp
        simp only [Function.comp_apply, customerFromDict_to_dict p.2 h2]
      rw [List.map_congr_left this]
      simp
    · intro p hp
      obtain ⟨q, hq, rfl⟩ := List.mem_map.mp hp
      exact (hc q hq).1
    · simpa using hndc
  · show load_accounts (b.accounts.map fun p => (p.1, p.2.to_dict)) [] = b.accounts
    rw [load_accounts_eq]
    · rw [List.nil_append, List.map_map]
      have : ∀ p ∈ b.accounts,
          ((fun p : String × AccountDict => (p.1, accountFromDict p.2)) ∘
            (fun p : String × Account => (p.1, p.2.to_dict))) p = p := by
        intro p _
        simp only [Function.comp_apply, accountFromDict_to_dict p.2]
      rw [List.map_congr_left this]
      simp
    · intro p hp
      obtain ⟨q, hq, rfl⟩ := List.mem_map.mp hp
      exact ha q hq
    · simpa using hnda

theorem C8_round_trip_witness :
    bankC8.well_formed ∧
    (Bank.load_data bankC8.save_data.stored_customers
        bankC8.save_data.stored_accounts).customers = bankC8.customers ∧
    (Bank.load_data bankC8.save_data.stored_customers
        bankC8.save_data.stored_accounts).accounts = bankC8.accounts := by
  have hwf : bankC8.well_formed := by
    refine ⟨?_, ?_, ?_, ?_⟩ <;> decide
  exact ⟨hwf, C8_round_trip bankC8 hwf⟩

/-- C3: a successful transfer between two distinct known accounts conserves
the sum of all balances — the source decreases and the destination increases
by exactly the amount; and the compensating action of the rollback branch
(crediting the withdrawn amount back) restores the source balance exactly
(the branch itself returns failure by construction, see C10 for its
unreachability). -/
theorem C3_transfer_conservation (b : Bank) (from_acc_num to_acc_num : String)
    (amount : Rat) (password : String) :
    (from_acc_num ≠ to_acc_num →
      (b.transfer_funds from_acc_num to_acc_num amount password).1 = true →
      (balancesSum ((b.transfer_funds from_acc_num to_acc_num amount password).2).accounts
         = balancesSum b.accounts ∧
       (∀ a, lookupA b.accounts from_acc_num = some a →
         (lookupA ((b.transfer_funds from_acc_num to_acc_num amount password).2).accounts
             from_acc_num).map Account.balance
           = some (a.balance - amount)) ∧
       (∀ a, lookupA b.accounts to_acc_num = some a →
         (lookupA ((b.transfer_funds from_acc_num to_acc_num amount password).2).accounts
             to_acc_num).map Account.balance
           = some (a.balance + amount)))) ∧
    (∀ acc acc' : Account, acc.withdraw amount = (true, acc') →
      ((acc'.deposit amount).1 = true ∧
       ((acc'.deposit amount).2).balance = acc.balance)) := by
  constructor
  · intro hne ht1
    rcases hT : b.transfer_funds from_acc_num to_acc_num amount password with ⟨ok, b2⟩
    rw [hT] at ht1
    dsimp only at ht1
    subst ht1
    unfold Bank.transfer_funds at hT
    rcases h1 : lookupA b.accounts from_acc_num with _ | from_acc <;> rw [h1] at hT
    · cases hT
    rcases h2 : lookupA b.accounts to_acc_num with _ | to_acc0 <;> rw [h2] at hT
    · cases hT
    dsimp only at hT
    by_cases ha : amount ≤ 0
    · rw [if_pos ha] at hT
      cases hT
    rw [if_neg ha] at hT
    have hpos : 0 < amount := lt_of_not_le ha
    by_cases hlk : from_acc.is_locked
    · rw [if_pos hlk] at hT
      cases hT
    rw [if_neg hlk] at hT
    by_cases hv : (from_acc.verify_password password).1
    swap
    · rw [if_pos (by simp [hv])] at hT
      cases hT
    rw [if_neg (by simp [hv])] at hT
    by_cases hw : ((from_acc.verify_password password).2.withdraw amount).1
    swap
    · rw [if_neg hw] at hT
      cases hT
    rw [if_pos hw] at hT
    have hv2b : ((from_acc.verify_password password).2).balance = from_acc.balance :=
      (verify_password_fields from_acc (from_acc.verify_password password).2 password
        (from_acc.verify_password password).1 rfl).1
    have hwd : (from_acc.verify_password password).2.withdraw amount
        = (true, ((from_acc.verify_password password).2.withdraw amount).2) := by
      rw [← hw]
    have hw2b : (((from_acc.verify_password password).2.withdraw amount).2).balance
        = from_acc.balance - amount := by
      rw [(withdraw_success _ _ amount hwd).2, hv2b]
    have hto2 : lookupA (insertA (insertA b.accounts from_acc_num
        (from_acc.verify_password password).2) from_acc_num
        ((from_acc.verify_password password).2.withdraw amount).2) to_acc_num
        = some to_acc0 := by
      rw [lookupA_insertA_ne _ _ _ _ hne, lookupA_insertA_ne _ _ _ _ hne, h2]
    rw [hto2] at hT
    dsimp only at hT
    rw [deposit_pos to_acc0 amount hpos] at hT
    dsimp only at hT
    injection hT with hok hb2
    subst hb2
    rw [save_data_accounts]
    refine ⟨?_, ?_, ?_⟩
    · rw [balancesSum_insertA _ _ to_acc0 _ hto2,
          balancesSum_insertA _ _ (from_acc.verify_password password).2 _
            (lookupA_insertA_self _ _ _),
          balancesSum_insertA _ _ from_acc _ h1, hv2b, hw2b]
      ring
    · intro a hafrom
      injection hafrom with hh
      subst hh
      dsimp only
      rw [lookupA_insertA_ne _ _ _ _ (Ne.symm hne), lookupA_insertA_self]
      simp [hw2b]
    · intro a hato
      injection hato with hh
      subst hh
      dsimp only
      rw [lookupA_insertA_self]
      simp
  · intro acc acc' hwd
    obtain ⟨hpos, hbal⟩ := withdraw_success acc acc' amount hwd
    rw [deposit_pos acc' amount hpos]
    refine ⟨rfl, ?_⟩
    dsimp only
    rw [hbal]
    ring

/-- Forward evaluation of a successful `transfer_funds` run, used to
instantiate claims on concrete ledgers. -/
theorem transfer_funds_returns_true (b : Bank) (f t pw : String) (amount : Rat)
    (ff tt : Account) (hne : f ≠ t)
    (hf : lookupA b.accounts f = some ff) (ht : lookupA b.accounts t = some tt)
    (hpos : 0 < amount) (hl : ff.is_locked = false)
    (hv : (ff.verify_password pw).1 = true)
    (hwok : ((ff.verify_password pw).2.withdraw amount).1 = true) :
    (b.transfer_funds f t amount pw).1 = true := by
  unfold Bank.transfer_funds
  rw [hf, ht]
  dsimp only
  rw [if_neg (not_le.mpr hpos), if_neg (by rw [hl]; exact Bool.false_ne_true), hv,
      if_neg (show ¬((!true) = true) by simp), if_pos hwok]
  have hto2 : lookupA (insertA (insertA b.accounts f (ff.verify_password pw).2) f
      ((ff.verify_password pw).2.withdraw amount).2) t = some tt := by
    rw [lookupA_insertA_ne _ _ _ _ hne, lookupA_insertA_ne _ _ _ _ hne, ht]
  rw [hto2]
  dsimp only
  rw [deposit_pos tt amount hpos]
  rfl

theorem C3_transfer_conservation_witness :
    balancesSum ((bankC3.transfer_funds "f1" "t1" 4 "pw").2).accounts
      = balancesSum bankC3.accounts ∧
    ((acctC3from.withdraw 4).2.deposit 4).1 = true ∧
    (((acctC3from.withdraw 4).2.deposit 4).2).balance = acctC3from.balance := by
  have hv : acctC3from.verify_password "pw"
      = (true, { acctC3from with failed_attempts := 0 }) :=
    verify_password_correct _ _ rfl rfl
  have hwok : ((acctC3from.verify_password "pw").2.withdraw 4).1 = true := by
    rw [hv]
    norm_num [Account.withdraw, acctC3from]
  have htf1 : (bankC3.transfer_funds "f1" "t1" 4 "pw").1 = true :=
    transfer_funds_returns_true bankC3 "f1" "t1" "pw" 4 acctC3from acctC3to
      (by decide) rfl rfl (by norm_num) rfl (by rw [hv]) hwok
  have h1 : (acctC3from.withdraw 4).1 = true := by
    norm_num [Account.withdraw, acctC3from]
  have hwd : acctC3from.withdraw 4 = (true, (acctC3from.withdraw 4).2) := by
    rw [← h1]
  obtain ⟨hsum, _, _⟩ :=
    (C3_transfer_conservation bankC3 "f1" "t1" 4 "pw").1 (by decide) htf1
  obtain ⟨hd1, hd2⟩ :=
    (C3_transfer_conservation bankC3 "f1" "t1" 4 "pw").2 acctC3from
      (acctC3from.withdraw 4).2 hwd
  exact ⟨hsum, hd1, hd2⟩

/-- C7: `remove_customer` fails on an unknown id; a cancel choice, an invalid
choice, or a mismatched non-zero-balance confirmation token each return
failure with both mappings untouched; a fully confirmed removal deletes every
owned account, then the customer, leaves all other entries alone, and
persists. -/
theorem C7_remove_customer (b : Bank) (customer_id choice confirm : String)
    (hndc : (b.customers.map Prod.fst).Nodup)
    (hnda : (b.accounts.map Prod.fst).Nodup) :
    (lookupA b.customers customer_id = none →
      b.remove_customer customer_id choice confirm = (false, b)) ∧
    (∀ c, lookupA b.customers customer_id = some c → c.account_numbers ≠ [] →
      ((choice = "1" → b.remove_customer customer_id choice confirm = (false, b)) ∧
       (choice ≠ "1" → choice ≠ "2" →
         b.remove_customer customer_id choice confirm = (false, b)) ∧
       (choice = "2" →
         c.account_numbers.filter (fun acc_num =>
            match lookupA b.accounts acc_num with
            | some account => account.balance ≠ 0
            | none => false) ≠ [] →
         confirm ≠ "CONFIRM" →
         b.remove_customer customer_id choice confirm = (false, b)))) ∧
    (∀ c, lookupA b.customers customer_id = some c →
      (b.remove_customer customer_id choice confirm).1 = true →
      (lookupA ((b.remove_customer customer_id choice confirm).2).customers
          customer_id = none ∧
       (∀ n ∈ c.account_numbers,
         lookupA ((b.remove_customer customer_id choice confirm).2).accounts n = none) ∧
       (∀ n, n ∉ c.account_numbers →
         lookupA ((b.remove_customer customer_id choice confirm).2).accounts n
           = lookupA b.accounts n) ∧
       (∀ cid2, cid2 ≠ customer_id →
         lookupA ((b.remove_customer customer_id choice confirm).2).customers cid2
           = lookupA b.customers cid2) ∧
       ((b.remove_customer customer_id choice confirm).2).persisted)) := by
  unfold Bank.remove_customer
  rcases hcus : lookupA b.customers customer_id with _ | cust <;> dsimp only
  · exact ⟨fun _ => rfl, fun c hc => (by cases hc), fun c hc => (by cases hc)⟩
  refine ⟨fun hnone => (by cases hnone), ?_, ?_⟩
  · intro c hc hne
    injection hc with hh
    subst hh
    refine ⟨?_, ?_, ?_⟩
    · intro h1
      rw [if_pos hne, if_pos h1]
    · intro h1 h2
      rw [if_pos hne, if_neg h1, if_neg h2]
    · intro h2 hfil hcf
      subst h2
      rw [if_pos hne, if_neg (by decide), if_pos rfl, if_pos ⟨hfil, hcf⟩]
  · intro c hc hsucc
    injection hc with hh
    subst hh
    by_cases hacc : cust.account_numbers ≠ []
    · by_cases h1 : choice = "1"
      · rw [if_pos hacc, if_pos h1] at hsucc
        cases hsucc
      by_cases h2 : choice = "2"
      · subst h2
        rw [if_pos hacc, if_neg h1, if_pos rfl] at hsucc ⊢
        by_cases hfc : cust.account_numbers.filter (fun acc_num =>
            match lookupA b.accounts acc_num with
            | some account => decide (account.balance ≠ 0)
            | none => false) ≠ [] ∧ confirm ≠ "CONFIRM"
        · rw [if_pos hfc] at hsucc
          cases hsucc
        · rw [if_neg hfc] at hsucc ⊢
          refine ⟨?_, ?_, ?_, ?_, ?_⟩
          · exact lookupA_eraseA_self b.customers customer_id hndc
          · intro n hn
            exact fold_erase_mem cust.account_numbers b.accounts n hnda hn
          · intro n hn
            exact fold_erase_not_mem cust.account_numbers b.accounts n hn
          · intro cid2 hcid
            exact lookupA_eraseA_ne b.customers customer_id cid2 hcid
          · exact save_data_persisted _
      · rw [if_pos hacc, if_neg h1, if_neg h2] at hsucc
        cases hsucc
    · rw [if_neg hacc] at hsucc ⊢
      have hacc' : cust.account_numbers = [] := not_ne_iff.mp hacc
      refine ⟨?_, ?_, ?_, ?_, ?_⟩
      · exact lookupA_eraseA_self b.customers customer_id hndc
      · intro n hn
        rw [hacc'] at hn
        cases hn
      · intro n _
        rfl
      · intro cid2 hcid
        exact lookupA_eraseA_ne b.customers customer_id cid2 hcid
      · exact save_data_persisted _

theorem C7_remove_customer_witness :
    bankC7.remove_customer "zz" "1" "x" = (false, bankC7) ∧
    bankC7.remove_customer "c1" "2" "nope" = (false, bankC7) ∧
    lookupA ((bankC7.remove_customer "c1" "2" "CONFIRM").2).accounts "a1" = none ∧
    lookupA ((bankC7.remove_customer "c1" "2" "CONFIRM").2).customers "c1" = none ∧
    ((bankC7.remove_customer "c1" "2" "CONFIRM").2).persisted := by
  have hndc : (bankC7.customers.map Prod.fst).Nodup := by decide
  have hnda : (bankC7.accounts.map Prod.fst).Nodup := by decide
  have hD := ((C7_remove_customer bankC7 "c1" "2" "nope" hndc hnda).2.1
    { custC4 with account_numbers := ["a1"] } rfl (by decide)).2.2 rfl
    (by decide) (by decide)
  have hsucc : (bankC7.remove_customer "c1" "2" "CONFIRM").1 = true := by rfl
  have hC := (C7_remove_customer bankC7 "c1" "2" "CONFIRM" hndc hnda).2.2
    { custC4 with account_numbers := ["a1"] } rfl hsucc
  exact ⟨(C7_remove_customer bankC7 "zz" "1" "x" hndc hnda).1 rfl, hD,
    hC.2.1 "a1" (by simp), hC.1, hC.2.2.2.2⟩

theorem account_ok_congr (a a' : Account) (hb : a'.balance = a.balance)
    (hk : a'.kind = a.kind) : account_ok a' = account_ok a := by
  unfold account_ok
  rw [hb, hk]

theorem account_ok_deposit (a : Account) (amount : Rat)
    (h : account_ok a = true) : account_ok (a.deposit amount).2 = true := by
  by_cases hp : 0 < amount
  · rw [deposit_pos a amount hp]
    unfold account_ok at h ⊢
    rcases hk : a.kind with r | od <;> rw [hk] at h <;>
      simp only [hk] <;> rw [decide_eq_true_eq] at h ⊢ <;> linarith
  · rw [deposit_nonpos a amount hp]
    exact h

theorem account_ok_withdraw (a : Account) (amount : Rat)
    (h : account_ok a = true) : account_ok (a.withdraw amount).2 = true := by
  unfold Account.withdraw
  rcases hk : a.kind with r | od <;> dsimp only
  · split
    · next hc =>
      simp only [account_ok, hk]
      rw [decide_eq_true_eq]
      have := hc.2
      linarith
    · exact h
  · split
    · next hc =>
      simp only [account_ok, hk]
      rw [decide_eq_true_eq]
      have := hc.2
      linarith
    · exact h

theorem account_ok_verify (a : Account) (p : String)
    (h : account_ok a = true) : account_ok (a.verify_password p).2 = true := by
  have hf := verify_password_fields a (a.verify_password p).2 p (a.verify_password p).1 rfl
  rw [account_ok_congr a (a.verify_password p).2 hf.1 hf.2.1]
  exact h

theorem account_ok_interest_step (a : Account) (hok : account_ok a = true)
    (hr : (match a.kind with
           | .savings interest_rate => decide (0 ≤ interest_rate)
           | .checking _ => true) = true) :
    account_ok (match a.kind with
                | .savings _ => a.apply_interest
                | .checking _ => a) = true := by
  rcases hk : a.kind with r | od <;> rw [hk] at hr <;> dsimp only
  · unfold Account.apply_interest
    simp only [hk]
    unfold account_ok at hok ⊢
    rw [hk] at hok
    simp only [hk]
    rw [decide_eq_true_eq] at hok ⊢
    rw [decide_eq_true_eq] at hr
    nlinarith
  · exact hok

theorem accounts_ok_map_interest (l : List (String × Account))
    (hall : accounts_ok l = true) (hr : rates_ok l = true) :
    accounts_ok (l.map (fun p => (p.1, match p.2.kind with
      | .savings _ => p.2.apply_interest
      | .checking _ => p.2))) = true := by
  induction l with
  | nil => rfl
  | cons hd tl ih =>
    rw [accounts_ok, List.all_cons, Bool.and_eq_true] at hall
    rw [rates_ok, List.all_cons, Bool.and_eq_true] at hr
    rw [List.map_cons, accounts_ok, List.all_cons, Bool.and_eq_true]
    exact ⟨account_ok_interest_step hd.2 hall.1 hr.1, ih hall.2 hr.2⟩

/-- C4 (amended): the floor invariant (savings balance at least 0, checking
balance at least `-overdraft_limit`) is preserved by every ledger operation
except that `create_account` preserves it only when the requested initial
balance is non-negative (and the supplied overdraft limit non-negative) —
the code performs no validation, so an arbitrary initial balance can break
it; `apply_all_interest` preserves it when every savings rate is
non-negative. -/
theorem C4_floor_invariant_amended (b : Bank)
    (h : accounts_ok b.accounts = true) :
    (∀ c, accounts_ok ((b.add_customer c).2).accounts = true) ∧
    (∀ customer_id choice confirm,
      accounts_ok ((b.remove_customer customer_id choice confirm).2).accounts = true) ∧
    (∀ customer_id account_type initial_balance password kw_ir kw_od generated_id,
      0 ≤ initial_balance → 0 ≤ (kw_od.getD 0 : Rat) →
      accounts_ok ((b.create_account customer_id account_type initial_balance password
        kw_ir kw_od generated_id).2).accounts = true) ∧
    (∀ account_number amount,
      accounts_ok ((b.deposit account_number amount).2).accounts = true) ∧
    (∀ account_number amount password,
      accounts_ok ((b.withdraw account_number amount password).2).accounts = true) ∧
    (∀ from_acc_num to_acc_num amount password,
      accounts_ok ((b.transfer_funds from_acc_num to_acc_num amount
        password).2).accounts = true) ∧
    (rates_ok b.accounts = true →
      accounts_ok (b.apply_all_interest).accounts = true) := by
  refine ⟨?_, ?_, ?_, ?_, ?_, ?_, ?_⟩
  · intro c
    unfold Bank.add_customer
    split
    · exact h
    · exact h
  · intro customer_id choice confirm
    unfold Bank.remove_customer
    rcases hcu : lookupA b.customers customer_id with _ | cust <;> dsimp only
    · exact h
    split
    · split
      · exact h
      split
      · split
        · exact h
        · exact fold_erase_accounts_ok cust.account_numbers b.accounts h
      · exact h
    · exact h
  · intro customer_id account_type initial_balance password kw_ir kw_od generated_id
      hbal hod
    unfold Bank.create_account
    rcases hcu : lookupA b.customers customer_id with _ | cust <;> dsimp only
    · exact h
    by_cases hs : strLower account_type = "savings"
    · rw [if_pos hs]
      dsimp only
      refine accounts_ok_insertA _ _ _ h ?_
      unfold account_ok SavingsAccount.mk
      dsimp only
      exact decide_eq_true hbal
    rw [if_neg hs]
    by_cases hc2 : strLower account_type = "checking"
    · rw [if_pos hc2]
      dsimp only
      refine accounts_ok_insertA _ _ _ h ?_
      unfold account_ok CheckingAccount.mk
      dsimp only
      rw [decide_eq_true_eq]
      linarith
    · rw [if_neg hc2]
      exact h
  · intro account_number amount
    unfold Bank.deposit
    rcases ha : lookupA b.accounts account_number with _ | acct <;> dsimp only
    · exact h
    have hok := accounts_ok_lookup b.accounts account_number acct h ha
    split
    · exact accounts_ok_insertA _ _ _ h (account_ok_deposit acct amount hok)
    · exact accounts_ok_insertA _ _ _ h (account_ok_deposit acct amount hok)
  · intro account_number amount password
    unfold Bank.withdraw
    rcases ha : lookupA b.accounts account_number with _ | acct <;> dsimp only
    · exact h
    have hok := accounts_ok_lookup b.accounts account_number acct h ha
    have hokv := account_ok_verify acct password hok
    have hins1 := accounts_ok_insertA b.accounts account_number
      (acct.verify_password password).2 h hokv
    have hokw := account_ok_withdraw (acct.verify_password password).2 amount hokv
    split
    · exact h
    split
    · exact hins1
    split
    · exact accounts_ok_insertA _ _ _ hins1 hokw
    · exact accounts_ok_insertA _ _ _ hins1 hokw
  · intro from_acc_num to_acc_num amount password
    unfold Bank.transfer_funds
    rcases hf : lookupA b.accounts from_acc_num with _ | ff <;> dsimp only
    · exact h
    rcases ht : lookupA b.accounts to_acc_num with _ | tt0 <;> dsimp only
    · exact h
    split
    · exact h
    split
    · exact h
    have hokf := accounts_ok_lookup b.accounts from_acc_num ff h hf
    have hokv := account_ok_verify ff password hokf
    have hins1 := accounts_ok_insertA b.accounts from_acc_num
      (ff.verify_password password).2 h hokv
    have hokw := account_ok_withdraw (ff.verify_password password).2 amount hokv
    have hins2 := accounts_ok_insertA _ from_acc_num
      ((ff.verify_password password).2.withdraw amount).2 hins1 hokw
    split
    · exact hins1
    split
    · rcases hto2 : lookupA (insertA (insertA b.accounts from_acc_num
          (ff.verify_password password).2) from_acc_num
          ((ff.verify_password password).2.withdraw amount).2) to_acc_num
        with _ | to_acc <;> dsimp only
      · exact hins2
      have hokt := accounts_ok_lookup _ to_acc_num to_acc hins2 hto2
      have hins3 := accounts_ok_insertA _ to_acc_num (to_acc.deposit amount).2 hins2
        (account_ok_deposit to_acc amount hokt)
      split
      · exact hins3
      rcases hf2 : lookupA (insertA (insertA (insertA b.accounts from_acc_num
          (ff.verify_password password).2) from_acc_num
          ((ff.verify_password password).2.withdraw amount).2) to_acc_num
          (to_acc.deposit amount).2) from_acc_num with _ | from2 <;> dsimp only
      · exact hins3
      have hokf2 := accounts_ok_lookup _ from_acc_num from2 hins3 hf2
      exact accounts_ok_insertA _ _ _ hins3 (account_ok_deposit from2 amount hokf2)
    · exact hins2
  · intro hr
    unfold Bank.apply_all_interest
    exact accounts_ok_map_interest b.accounts h hr

/-- C4 (counterexample to the claim as stated): starting from the reachable
ledger `bankC4` (empty ledger plus one customer), `create_account` with
initial balance `-1` creates a savings account and leaves the ledger with a
savings balance below 0 — the invariant is not preserved by `create_account`
for arbitrary initial balances. -/
theorem C4_floor_invariant_counterexample :
    accounts_ok bankC4.accounts = true ∧
    ((bankC4.create_account "c1" "savings" (-1) "" none none "aaaaaaaa").1).isSome
      = true ∧
    accounts_ok ((bankC4.create_account "c1" "savings" (-1) "" none none
      "aaaaaaaa").2).accounts = false := by
  refine ⟨rfl, rfl, ?_⟩
  show accounts_ok [("aaaaaaaa", SavingsAccount.mk "aaaaaaaa" "c1" (-1) "" 0.01)] = false
  unfold accounts_ok account_ok SavingsAccount.mk
  norm_num

theorem C4_floor_invariant_amended_witness :
    accounts_ok bankC4.accounts = true ∧
    accounts_ok ((bankC4.create_account "c1" "savings" 5 "" none none
      "bbbbbbbb").2).accounts = true ∧
    accounts_ok ((bankC4.deposit "a1" 3).2).accounts = true ∧
    accounts_ok (bankC4.apply_all_interest).accounts = true := by
  have h : accounts_ok bankC4.accounts = true := rfl
  exact ⟨h,
    (C4_floor_invariant_amended bankC4 h).2.2.1 "c1" "savings" 5 "" none none
      "bbbbbbbb" (by norm_num) (by norm_num),
    (C4_floor_invariant_amended bankC4 h).2.2.2.1 "a1" 3,
    (C4_floor_invariant_amended bankC4 h).2.2.2.2.2.2 rfl⟩

/-- C5: `create_account` returns `None` for an unknown customer or an
unrecognized type, but performs no freshness check on the generated
identifier (`str(uuid.uuid4())[:8]`): if the external draw collides with an
existing account number, the account is created under the same identifier
and the existing account is silently overwritten — here `"deadbeef"`
(balance 7) is replaced by the new account (balance 0). -/
theorem C5_create_account_no_freshness_check :
    (bankC5.create_account "zz" "savings" 0 "" none none "deadbeef").1 = none ∧
    (bankC5.create_account "c1" "weird" 0 "" none none "deadbeef").1 = none ∧
    lookupA bankC5.accounts "deadbeef" = some acctC5old ∧
    ((bankC5.create_account "c1" "savings" 0 "" none none "deadbeef").1).map
        Account.account_number = some "deadbeef" ∧
    lookupA ((bankC5.create_account "c1" "savings" 0 "" none none
        "deadbeef").2).accounts "deadbeef"
      = some (SavingsAccount.mk "deadbeef" "c1" 0 "" 0.01) ∧
    SavingsAccount.mk "deadbeef" "c1" 0 "" 0.01 ≠ acctC5old := by
  refine ⟨rfl, rfl, rfl, rfl, rfl, ?_⟩
  intro he
  have := congrArg Account.balance he
  simp [SavingsAccount.mk, acctC5old] at this

/-- C6 (amended): `Bank.withdraw` persists after a failed verification
attempt and after a successful withdrawal; but when verification succeeds
and the balance-rule withdrawal fails, no save happens — the bank returns
with its stored snapshot unchanged, so the attempt-counter reset of the
successful verification is not durably recorded. -/
theorem C6_withdraw_persistence_amended (b : Bank) (account_number : String)
    (amount : Rat) (password : String) (acc : Account)
    (ha : lookupA b.accounts account_number = some acc)
    (hl : acc.is_locked = false) :
    ((acc.verify_password password).1 = false →
      ((b.withdraw account_number amount password).2).persisted) ∧
    ((acc.verify_password password).1 = true →
      ((acc.verify_password password).2.withdraw amount).1 = true →
      ((b.withdraw account_number amount password).2).persisted) ∧
    ((acc.verify_password password).1 = true →
      ((acc.verify_password password).2.withdraw amount).1 = false →
      (((b.withdraw account_number amount password).2).stored_accounts
          = b.stored_accounts ∧
       ((b.withdraw account_number amount password).2).stored_customers
          = b.stored_customers)) := by
  unfold Bank.withdraw
  rw [ha]
  dsimp only
  rw [if_neg (by rw [hl]; exact Bool.false_ne_true)]
  refine ⟨?_, ?_, ?_⟩
  · intro hv
    rw [hv, if_pos (by simp)]
    exact save_data_persisted _
  · intro hv hw
    rw [hv, if_neg (by simp), if_pos hw]
    exact save_data_persisted _
  · intro hv hw
    rw [hv, if_neg (by simp), if_neg (by simp [hw])]
    exact ⟨rfl, rfl⟩

theorem C6_withdraw_persistence_amended_witness :
    ((bankC8.withdraw "a1" 7 "x").2).persisted ∧
    (((bankC6.withdraw "a1" 1000 "pw").2).stored_accounts
        = bankC6.stored_accounts ∧
     ((bankC6.withdraw "a1" 1000 "pw").2).stored_customers
        = bankC6.stored_customers) := by
  have hv := verify_password_correct acctC6 "pw" rfl rfl
  have hbad : ((({ acctC7 with password_hash := "h", failed_attempts := 1 } :
      Account)).verify_password "x").1 = false := by
    have hne' : ((({ acctC7 with password_hash := "h", failed_attempts := 1 } :
        Account)).password_hash == sha256hex "x") = false :=
      beq_eq_false_iff_ne.mpr
        (fun he => sha256hex_ne_of_length "x" (by decide) he.symm)
    unfold Account.verify_password
    rw [if_neg (show ¬((({ acctC7 with password_hash := "h", failed_attempts := 1 } :
        Account)).is_locked = true) by decide), hne']
    rfl
  exact ⟨(C6_withdraw_persistence_amended bankC8 "a1" 7 "x"
      { acctC7 with password_hash := "h", failed_attempts := 1 } rfl rfl).1 hbad,
    (C6_withdraw_persistence_amended bankC6 "a1" 1000 "pw" acctC6 rfl rfl).2.2
      (by rw [hv]) (by rw [hv]; norm_num [Account.withdraw, acctC6])⟩

/-- C6 (counterexample to the claim as stated): on `bankC6` (account `"a1"`,
balance 10, `failed_attempts` 2 recorded both in memory and in the stored
snapshot), a withdrawal of 1000 with the correct password verifies
successfully (resetting the in-memory counter to 0) but fails the balance
rule; the operation returns without saving, so the stored snapshot still
records `failed_attempts = 2` and re-serializing would change it — the
verification attempt was not persisted. -/
theorem C6_withdraw_persistence_counterexample :
    (bankC6.withdraw "a1" 1000 "pw").1 = false ∧
    (lookupA ((bankC6.withdraw "a1" 1000 "pw").2).accounts "a1").map
        Account.failed_attempts = some 0 ∧
    (lookupA ((bankC6.withdraw "a1" 1000 "pw").2).stored_accounts "a1").map
        AccountDict.failed_attempts = some 2 ∧
    ¬ ((bankC6.withdraw "a1" 1000 "pw").2).persisted := by
  have hv := verify_password_correct acctC6 "pw" rfl rfl
  have hw : (({ acctC6 with failed_attempts := 0 } : Account).withdraw 1000).1
      = false := by
    norm_num [Account.withdraw, acctC6]
  have hw2 : (({ acctC6 with failed_attempts := 0 } : Account).withdraw 1000).2
      = { acctC6 with failed_attempts := 0 } :=
    withdraw_fail _ _ 1000 (by rw [← hw])
  have hE : bankC6.withdraw "a1" 1000 "pw"
      = (false, { bankC6 with
          accounts := [("a1", { acctC6 with failed_attempts := 0 })] }) := by
    unfold Bank.withdraw
    rw [show lookupA bankC6.accounts "a1" = some acctC6 from rfl]
    dsimp only
    rw [if_neg (show ¬(acctC6.is_locked = true) by decide), hv]
    dsimp only
    rw [if_neg (by simp), if_neg (by simp [hw]), hw2]
    rfl
  rw [hE]
  refine ⟨rfl, rfl, rfl, ?_⟩
  intro hp
  have h2 := congrArg
    (fun bb : Bank => (lookupA bb.stored_accounts "a1").map
      AccountDict.failed_attempts) hp
  have hL : (lookupA (Bank.save_data { bankC6 with
      accounts := [("a1", { acctC6 with failed_attempts := 0 })] }).stored_accounts
      "a1").map AccountDict.failed_attempts = some 0 := rfl
  have hR : (lookupA ({ bankC6 with
      accounts := [("a1", { acctC6 with failed_attempts := 0 })] }).stored_accounts
      "a1").map AccountDict.failed_attempts = some 2 := rfl
  dsimp only at h2
  rw [hL, hR] at h2
  cases h2
